import Mathlib

/-!
Verification development for the simple-chatbot repository: a shallow
embedding of `app/chatbot_service.py`, `app/conversation_service.py`,
`app/models.py` and the orchestration in `app/chatbot.py`, together with
theorems settling the specification's claims about them.

Conventions of the embedding:
* Python strings are Lean `String`s; the generator works on the character
  list of the trimmed, lower-cased input exactly as
  `user_message.lower().strip()` does (lower-casing is ASCII `Char.toLower`,
  trimming drops whitespace characters from both ends).
* `random.choice(candidates)` is modelled by an oracle index `pick : Nat`
  reduced modulo the candidate-list length, so "the returned string" ranges
  exactly over the candidate list of the matched category.
* Timestamps (`datetime.utcnow()`) are explicit `Nat` arguments; the caller
  of an operation supplies the clock readings the operation would take.
* The storage layer (`app/database.py`, not part of the sources) is
  modelled as an explicit `DB` state threaded through the operations;
  commits may fail with a caught exception, which is modelled by Boolean
  fault arguments (`insertOk`, `touchOk`) on the operations that commit.
-/

namespace App

/-- ASCII lower-casing of a character list; models Python `str.lower()` on
the ASCII inputs the service handles. From `chatbot_service.py` line 26. -/
def pyLower (cs : List Char) : List Char := cs.map Char.toLower

/-- Strip whitespace from both ends of a character list; models Python
`str.strip()`. From `chatbot_service.py` line 26. -/
def pyStrip (cs : List Char) : List Char :=
  ((cs.dropWhile Char.isWhitespace).reverse.dropWhile Char.isWhitespace).reverse

/-- The trimmed, lower-cased form `user_message.lower().strip()` of the
input, as a character list (`chatbot_service.py` line 26). -/
def normalize (s : String) : List Char := pyStrip (pyLower s.data)

/-- Python's substring test `needle in hay`. -/
def subStr (needle : String) (hay : List Char) : Bool :=
  hay.tails.any (fun t => needle.data.isPrefixOf t)

/-- Python's `any(kw in hay for kw in kws)`. -/
def containsAny (hay : List Char) (kws : List String) : Bool :=
  kws.any (fun k => subStr k hay)

/-- Python's `hay.endswith("?")`: the last character is a question mark
(false on the empty string). From `chatbot_service.py` line 39. -/
def endsWithQ (hay : List Char) : Bool := hay.getLast? == some '?'

/-- Greeting keywords, `chatbot_service.py` line 29. -/
def greetingKeywords : List String :=
  ["hello", "hi", "hey", "good morning", "good afternoon"]

/-- The four fixed greeting replies, `chatbot_service.py` lines 30-35. -/
def greetingResponses : List String :=
  ["Hello! How can I help you today?",
   "Hi there! What's on your mind?",
   "Hey! Great to see you. What can I do for you?",
   "Hello! I'm here to chat. What would you like to talk about?"]

/-- Fixed reply for "how are you" questions, `chatbot_service.py` line 41. -/
def howAreYouResponse : String :=
  "I'm doing great, thank you for asking! How are you doing today?"

/-- Fixed reply for name questions, `chatbot_service.py` line 43. -/
def nameResponse : String :=
  "I'm your friendly chatbot assistant! You can call me ChatBot. What's your name?"

/-- Fixed reply for weather questions, `chatbot_service.py` line 45. -/
def weatherResponse : String :=
  "I don't have access to real-time weather data, but I hope it's nice where you are! Is there anything else I can help you with?"

/-- Fixed reply for time questions, `chatbot_service.py` line 47. -/
def timeResponse : String :=
  "I don't have access to the current time, but you can check your device's clock. Is there something else I can assist you with?"

/-- The three generic question replies, `chatbot_service.py` lines 49-53. -/
def questionResponses : List String :=
  ["That's an interesting question! Let me think about that...",
   "Hmm, I'm not sure about that specific question, but I'd love to help you explore it further.",
   "Great question! While I might not have the exact answer, I'm happy to discuss it with you."]

/-- Fixed empathetic reply, `chatbot_service.py` line 58. -/
def negativeResponse : String :=
  "I'm sorry to hear you're feeling that way. Sometimes it helps to talk about what's bothering you. I'm here to listen."

/-- Fixed positive-emotion reply, `chatbot_service.py` line 61. -/
def positiveResponse : String :=
  "That's wonderful to hear! I'm glad you're feeling positive. What's making you so happy?"

/-- Fixed help reply, `chatbot_service.py` line 65. -/
def helpResponse : String :=
  "I'm here to help! I can chat with you about various topics, answer questions, or just have a friendly conversation. What would you like to talk about?"

/-- Fixed gratitude reply, `chatbot_service.py` line 69. -/
def thanksResponse : String :=
  "You're very welcome! I'm happy I could help. Is there anything else you'd like to chat about?"

/-- The three farewell replies, `chatbot_service.py` lines 73-77. -/
def farewellResponses : List String :=
  ["Goodbye! It was great chatting with you. Have a wonderful day!",
   "See you later! Feel free to come back anytime you want to chat.",
   "Take care! I enjoyed our conversation. Come back soon!"]

/-- The six fallback replies, `chatbot_service.py` lines 81-88. -/
def defaultResponses : List String :=
  ["That's interesting! Tell me more about that.",
   "I see what you mean. What made you think about that?",
   "Thanks for sharing that with me! How do you feel about it?",
   "That sounds intriguing. Can you elaborate a bit more?",
   "I appreciate you telling me that. What's your perspective on it?",
   "Interesting point! I'd love to hear more of your thoughts on this."]

/-- The candidate-reply pool `generate_response` draws from: the ordered
category matching of `ChatbotService.generate_response`
(`chatbot_service.py` lines 26-90), each branch yielding the list the code
picks from (singleton for the branches that return one literal). -/
def responseCandidates (user_message : String) : List String :=
  let t := normalize user_message
  if containsAny t greetingKeywords then
    greetingResponses
  else if endsWithQ t then
    if subStr "how are you" t then [howAreYouResponse]
    else if subStr "what" t && subStr "name" t then [nameResponse]
    else if subStr "weather" t then [weatherResponse]
    else if subStr "time" t then [timeResponse]
    else questionResponses
  else if containsAny t ["sad", "upset", "angry", "frustrated"] then [negativeResponse]
  else if containsAny t ["happy", "excited", "great", "awesome", "wonderful"] then [positiveResponse]
  else if containsAny t ["help", "assist", "support"] then [helpResponse]
  else if containsAny t ["thank", "thanks"] then [thanksResponse]
  else if containsAny t ["bye", "goodbye", "see you", "talk later"] then farewellResponses
  else defaultResponses

/-- `ChatbotService.generate_response` (`chatbot_service.py` lines 21-90):
the random draw `random.choice(candidates)` is modelled by the oracle index
`pick`, taken modulo the candidate count. -/
def generate_response (user_message : String) (pick : Nat) : String :=
  let c := responseCandidates user_message
  c.getD (pick % c.length) ""

/-- `MessageType` from `app/models.py` lines 7-11. -/
inductive MessageType where
  | USER
  | BOT
deriving DecidableEq, Repr

/-- The `users` table row, `app/models.py` lines 15-27 (the relationship
attributes are ORM views of the foreign keys and carry no extra state). -/
structure User where
  id : Nat
  username : String
  display_name : String
  created_at : Nat
  is_active : Bool
deriving DecidableEq, Repr

/-- The `conversations` table row, `app/models.py` lines 30-44. -/
structure Conversation where
  id : Nat
  title : String
  user_id : Nat
  created_at : Nat
  updated_at : Nat
  is_active : Bool
deriving DecidableEq, Repr

/-- The `messages` table row, `app/models.py` lines 47-63. -/
structure Message where
  id : Nat
  content : String
  message_type : MessageType
  conversation_id : Nat
  created_at : Nat
  response_time_ms : Option Nat
  model_used : Option String
deriving DecidableEq, Repr

/-- Modelled from the spec: the relational store behind `app/database.py`
(not among the sources; only imported). Rows are kept in insertion order,
primary keys are assigned from per-table counters, and the store enforces
the declared foreign-key and uniqueness constraints (spec section 6's schema),
surfacing a violation as a caught failure. -/
structure DB where
  users : List User
  conversations : List Conversation
  messages : List Message
  nextUserId : Nat
  nextConvId : Nat
  nextMsgId : Nat
deriving DecidableEq, Repr

/-- The freshly reset store (`reset_db` in `app/database.py`). -/
def DB.empty : DB := ⟨[], [], [], 0, 0, 0⟩

/-- `ConversationService.get_or_create_user` (`conversation_service.py`
lines 28-51): find by exact username, else create with `display_name`
defaulting to the username. `now` is the clock reading for `created_at`. -/
def get_or_create_user (db : DB) (username : String) (display_name : Option String)
    (now : Nat) : Option User × DB :=
  match db.users.find? (fun u => u.username == username) with
  | some u => (some u, db)
  | none =>
    let u : User := { id := db.nextUserId, username := username,
                      display_name := display_name.getD username,
                      created_at := now, is_active := true }
    (some u, { db with users := db.users ++ [u], nextUserId := db.nextUserId + 1 })

/-- `ConversationService.get_conversation` (`conversation_service.py`
lines 70-77): primary-key lookup. -/
def get_conversation (db : DB) (conversation_id : Nat) : Option Conversation :=
  db.conversations.find? (fun c => c.id == conversation_id)

/-- `ConversationService.create_conversation` (`conversation_service.py`
lines 53-68). The guard on the owning user models the storage layer's
foreign-key constraint (absent `app/database.py`), surfaced per the spec as
a caught failure: a missing `user_id` yields `none` and no new row. -/
def create_conversation (db : DB) (user_id : Nat) (title : Option String)
    (now : Nat) : Option Conversation × DB :=
  if (db.users.find? (fun u => u.id == user_id)).isSome then
    let c : Conversation := { id := db.nextConvId, title := title.getD "New Conversation",
                              user_id := user_id, created_at := now, updated_at := now,
                              is_active := true }
    (some c, { db with conversations := db.conversations ++ [c],
                       nextConvId := db.nextConvId + 1 })
  else (none, db)

/-- The relation `get_user_conversations` sorts by: `updated_at`
descending (`conversation_service.py` line 86). -/
def convDesc (a b : Conversation) : Prop := b.updated_at ≤ a.updated_at

instance : DecidableRel convDesc := fun a b => Nat.decLe b.updated_at a.updated_at

/-- `ConversationService.get_user_conversations` (`conversation_service.py`
lines 79-93): the user's conversations, restricted to active ones when
`active_only`, ordered by `updated_at` descending. -/
def get_user_conversations (db : DB) (user_id : Nat) (active_only : Bool) :
    List Conversation :=
  List.insertionSort convDesc
    (db.conversations.filter (fun c => c.user_id == user_id && (!active_only || c.is_active)))

/-- The touch of the parent conversation inside `create_message`
(`conversation_service.py` lines 118-123): set `updated_at` of the row with
the given primary key to the current time. -/
def touch_conversation (db : DB) (conversation_id : Nat) (now : Nat) : DB :=
  let convs := db.conversations.map
    (fun c => if c.id == conversation_id then { c with updated_at := now } else c)
  { db with conversations := convs }

/-- `ConversationService.create_message` (`conversation_service.py` lines
95-139). The code commits twice inside one `try`: first the message insert
(line 115), then the touch of the parent conversation's `updated_at`
(line 123). Each commit is a separate transaction of the storage layer.
`tInsert` is the clock reading taken for the message's `created_at`,
`tTouch` the one for the touch. `insertOk`/`touchOk` model a storage fault
at the respective commit (spec section 7's `PersistenceError`), which the
code catches and converts to a `none` result; a fault at the first commit
rolls the insert back, while a fault after it leaves the inserted row
durable. A `conversation_id` that references no conversation makes the
first commit fail the foreign-key constraint (modelled from the spec, the
constraint living in the absent `app/database.py`): no row is created. -/
def create_message (db : DB) (content : String) (message_type : MessageType)
    (conversation_id : Nat) (response_time_ms : Option Nat) (model_used : Option String)
    (tInsert tTouch : Nat) (insertOk touchOk : Bool) : Option Message × DB :=
  if (get_conversation db conversation_id).isSome && insertOk then
    let m : Message := { id := db.nextMsgId, content := content,
                         message_type := message_type,
                         conversation_id := conversation_id, created_at := tInsert,
                         response_time_ms := response_time_ms, model_used := model_used }
    let db1 : DB := { db with messages := db.messages ++ [m],
                              nextMsgId := db.nextMsgId + 1 }
    if touchOk then (some m, touch_conversation db1 conversation_id tTouch)
    else (none, db1)
  else (none, db)

/-- The relation `get_conversation_messages` sorts by: `created_at`
ascending (`conversation_service.py` line 146). -/
def msgLe (a b : Message) : Prop := a.created_at ≤ b.created_at

instance : DecidableRel msgLe := fun a b => Nat.decLe a.created_at b.created_at

instance : IsTotal Message msgLe := ⟨fun a b => Nat.le_total a.created_at b.created_at⟩

instance : IsTrans Message msgLe := ⟨fun _ _ _ h1 h2 => Nat.le_trans h1 h2⟩

/-- `ConversationService.get_conversation_messages` (`conversation_service.py`
lines 141-156): the conversation's messages ordered by `created_at`
ascending. The stored row order is the insertion order, and the storage
layer's sort is stable, modelled by a stable insertion sort. Mirroring the
code's `if limit:`, a limit of `0` is falsy and caps nothing. -/
def get_conversation_messages (db : DB) (conversation_id : Nat) (limit : Option Nat) :
    List Message :=
  let sorted := List.insertionSort msgLe
    (db.messages.filter (fun m => m.conversation_id == conversation_id))
  match limit with
  | some n => if n ≠ 0 then sorted.take n else sorted
  | none => sorted

/-- `ConversationService.update_conversation_title` (`conversation_service.py`
lines 196-214): set the title and touch `updated_at`; `none` when the id is
unknown. -/
def update_conversation_title (db : DB) (conversation_id : Nat) (title : String)
    (now : Nat) : Option Conversation × DB :=
  match get_conversation db conversation_id with
  | none => (none, db)
  | some c =>
    let c2 : Conversation := { c with title := title, updated_at := now }
    let convs := db.conversations.map
      (fun x => if x.id == conversation_id then { x with title := title, updated_at := now } else x)
    (some c2, { db with conversations := convs })

/-- `ConversationService.delete_conversation` (`conversation_service.py`
lines 216-234): soft delete — set `is_active` to false and touch
`updated_at`; returns false when the id is unknown. -/
def delete_conversation (db : DB) (conversation_id : Nat) (now : Nat) : Bool × DB :=
  match get_conversation db conversation_id with
  | none => (false, db)
  | some _ =>
    let convs := db.conversations.map
      (fun x => if x.id == conversation_id then { x with is_active := false, updated_at := now } else x)
    (true, { db with conversations := convs })

/-- `ChatbotService.model_name` (`chatbot_service.py` line 19). -/
def model_name : String := "simple-chatbot-v1.0"

/-- `ChatbotService.create_bot_message` (`chatbot_service.py` lines 92-123):
a single-commit insert of a BOT message carrying the fixed model tag.
Unlike `ConversationService.create_message`, this method never touches the
parent conversation's `updated_at` — it commits exactly once (line 107).
`tInsert` is the clock reading taken for the message's `created_at`;
`insertOk` models a storage fault at that one commit (caught by the code's
`except` and converted to `none`). The guard on the conversation is the
storage layer's foreign-key constraint, modelled from the spec as in
`create_message` (`app/database.py` is absent from the sources). -/
def create_bot_message (db : DB) (content : String) (conversation_id : Nat)
    (response_time_ms : Option Nat) (tInsert : Nat) (insertOk : Bool) :
    Option Message × DB :=
  if (get_conversation db conversation_id).isSome && insertOk then
    let m : Message := { id := db.nextMsgId, content := content,
                         message_type := MessageType.BOT,
                         conversation_id := conversation_id, created_at := tInsert,
                         response_time_ms := response_time_ms,
                         model_used := some model_name }
    (some m, { db with messages := db.messages ++ [m], nextMsgId := db.nextMsgId + 1 })
  else (none, db)

/-- `ChatbotService.process_user_message` (`chatbot_service.py` lines
125-155): generate a reply for the user text and persist it as a BOT
message via `create_bot_message`; `none` when persisting fails. `rtms` is
the measured elapsed time. The code's `except` branch can only run if
generation raises, which the total `generate_response` never does, so it is
dead and not modelled. -/
def process_user_message (db : DB) (user_message : String) (conversation_id : Nat)
    (pick rtms : Nat) (tInsert : Nat) (insertOk : Bool) :
    Option Message × DB :=
  let response_content := generate_response user_message pick
  create_bot_message db response_content conversation_id (some rtms) tInsert insertOk

/-- `ChatbotUI.send_message` (`chatbot.py` lines 96-147), the caller-side
realization of the spec's `processTurn`: reject blank input, persist the
trimmed text as a USER message (through `create_message`, whose two commits
may each fault), then hand the same trimmed text to `process_user_message`
for the BOT reply (a single insert commit, `tB`/`bInsertOk`). The first
component is the bot reply (`none` marks failure); UI rendering is out of
scope. -/
def send_message (db : DB) (content : String) (conversation_id : Nat)
    (tU1 tU2 : Nat) (uInsertOk uTouchOk : Bool) (pick rtms : Nat)
    (tB : Nat) (bInsertOk : Bool) : Option Message × DB :=
  if (pyStrip content.data).isEmpty then (none, db)
  else
    match create_message db (String.mk (pyStrip content.data)) MessageType.USER
        conversation_id none none tU1 tU2 uInsertOk uTouchOk with
    | (none, db1) => (none, db1)
    | (some _, db1) =>
      process_user_message db1 (String.mk (pyStrip content.data)) conversation_id
        pick rtms tB bInsertOk

/-- The pool of replies reachable from the question category (category 2):
the four fixed nested answers and the three generic question replies
(`chatbot_service.py` lines 39-54). -/
def questionPool : List String :=
  howAreYouResponse :: nameResponse :: weatherResponse :: timeResponse :: questionResponses

/-- The store after find-or-creating the user "alice" at time 1. -/
def dbU : DB := (get_or_create_user DB.empty "alice" none 1).2

/-- `dbU` after creating a conversation for user 0 at time 2: conversation
id 0, `updated_at` 2. -/
def dbC : DB := (create_conversation dbU 0 none 2).2

/-- The store after soft-deleting conversation 0 of `dbC` at time 3. -/
def dbDel : DB := (delete_conversation dbC 0 3).2

/-- The mutating operations the program exposes (the read-only operations
do not change the store). `newMessage` is `ConversationService.create_message`
and carries the clock reading of its insert, the step's `now` being the
reading of its touch; `botMessage` is `ChatbotService.create_bot_message`
(the bot reply of a turn and the welcome message), a single insert at `now`
that performs no touch. -/
inductive Op where
  | findOrCreateUser (username : String) (display_name : Option String)
  | newConversation (user_id : Nat) (title : Option String)
  | newMessage (content : String) (message_type : MessageType) (conversation_id : Nat)
      (response_time_ms : Option Nat) (model_used : Option String) (tInsert : Nat)
  | botMessage (content : String) (conversation_id : Nat) (response_time_ms : Option Nat)
  | softDelete (conversation_id : Nat)
  | retitle (conversation_id : Nat) (title : String)

/-- Applying one exposed operation, fault-free, at clock reading `now`. -/
def applyOp (db : DB) (op : Op) (now : Nat) : DB :=
  match op with
  | .findOrCreateUser u d => (get_or_create_user db u d now).2
  | .newConversation uid ti => (create_conversation db uid ti now).2
  | .newMessage content ty cid r mo tI =>
      (create_message db content ty cid r mo tI now true true).2
  | .botMessage content cid r => (create_bot_message db content cid r now true).2
  | .softDelete cid => (delete_conversation db cid now).2
  | .retitle cid ti => (update_conversation_title db cid ti now).2

/-- The clock readings inside one operation are ordered: a message's insert
time is not after its touch time. -/
def opTimeOk : Op → Nat → Prop
  | .newMessage _ _ _ _ _ tI, now => tI ≤ now
  | _, _ => True

/-- The stores reachable from a fresh store by fault-free exposed
operations under a monotone clock. -/
inductive Reach : DB → Nat → Prop where
  | init : Reach DB.empty 0
  | step {db : DB} {t : Nat} (op : Op) (now : Nat) :
      Reach db t → t ≤ now → opTimeOk op now → Reach (applyOp db op now) now

/-- All stored timestamps are bounded by the clock. -/
def TimeBound (db : DB) (t : Nat) : Prop :=
  (∀ c ∈ db.conversations, c.updated_at ≤ t) ∧ (∀ m ∈ db.messages, m.created_at ≤ t)

/-- The store reached by find-or-create "alice" at time 1, a new
conversation at time 2, a user message inserted at time 3 and touched at
time 4, and a bot reply inserted at time 5 — all fault-free. -/
def dbW : DB :=
  applyOp (applyOp (applyOp (applyOp DB.empty (Op.findOrCreateUser "alice" none) 1)
    (Op.newConversation 0 none) 2) (Op.newMessage "hi" MessageType.USER 0 none none 3) 4)
    (Op.botMessage "reply" 0 (some 0)) 5

/-- A `getD` at an index reduced modulo the length of a non-empty list is a
member of the list. -/
theorem getD_mod_mem {α : Type} (l : List α) (n : Nat) (d : α) (hl : l ≠ []) :
    l.getD (n % l.length) d ∈ l := by
  have hlen : n % l.length < l.length := Nat.mod_lt _ (List.length_pos.mpr hl)
  rw [List.getD_eq_getElem?_getD, List.getElem?_eq_getElem hlen]
  exact List.getElem_mem hlen

example : responseCandidates "Hello" = greetingResponses := by decide
example : responseCandidates "" = defaultResponses := by decide
example : responseCandidates "   " = defaultResponses := by decide
example : responseCandidates "hello?" = greetingResponses := by decide
example : responseCandidates "what time?" = [timeResponse] := by decide
example : responseCandidates "why?" = questionResponses := by decide

/-- Once the greeting branch is not taken and the input ends with a
question mark, the candidate pool is one of the five question-branch
outcomes. -/
theorem responseCandidates_question_char (s : String)
    (hg : containsAny (normalize s) greetingKeywords = false)
    (hq : endsWithQ (normalize s) = true) :
    responseCandidates s ∈
      [[howAreYouResponse], [nameResponse], [weatherResponse], [timeResponse],
       questionResponses] := by
  simp only [responseCandidates, hg, hq, Bool.false_eq_true, if_false, if_true]
  split_ifs <;> simp

/-- C9: generate("Hello") always returns one of the 4 fixed greeting reply
strings, and generate("") and generate("   ") each return one of the fixed
non-empty fallback (category 8) reply strings. -/
theorem C9_theorem : ∀ pick : Nat,
    generate_response "Hello" pick ∈ greetingResponses ∧
    generate_response "" pick ∈ defaultResponses ∧
    generate_response "   " pick ∈ defaultResponses ∧
    generate_response "" pick ≠ "" ∧
    generate_response "   " pick ≠ "" := by
  intro pick
  have h1 : responseCandidates "Hello" = greetingResponses := by decide
  have h2 : responseCandidates "" = defaultResponses := by decide
  have h3 : responseCandidates "   " = defaultResponses := by decide
  have g1 : generate_response "Hello" pick ∈ greetingResponses := by
    show (responseCandidates "Hello").getD
      (pick % (responseCandidates "Hello").length) "" ∈ greetingResponses
    rw [h1]; exact getD_mod_mem _ _ _ (by decide)
  have g2 : generate_response "" pick ∈ defaultResponses := by
    show (responseCandidates "").getD
      (pick % (responseCandidates "").length) "" ∈ defaultResponses
    rw [h2]; exact getD_mod_mem _ _ _ (by decide)
  have g3 : generate_response "   " pick ∈ defaultResponses := by
    show (responseCandidates "   ").getD
      (pick % (responseCandidates "   ").length) "" ∈ defaultResponses
    rw [h3]; exact getD_mod_mem _ _ _ (by decide)
  have hnb : ∀ r ∈ defaultResponses, r ≠ "" := by decide
  exact ⟨g1, g2, g3, hnb _ g2, hnb _ g3⟩

/-- C1 counterexample: the input "hello?" ends (after trimming and
lower-casing) with "?", yet the greeting category is tested first and
matches the keyword "hello", so every possible draw of generate("hello?")
is one of the four greeting reply strings. -/
theorem C1_counterexample :
    endsWithQ (normalize "hello?") = true ∧
    responseCandidates "hello?" = greetingResponses ∧
    generate_response "hello?" 0 ∈ greetingResponses := by
  refine ⟨by decide, by decide, ?_⟩
  show (responseCandidates "hello?").getD
    (0 % (responseCandidates "hello?").length) "" ∈ greetingResponses
  rw [(by decide : responseCandidates "hello?" = greetingResponses)]
  exact getD_mod_mem _ _ _ (by decide)

/-- C1 (amended): for every input whose trimmed, lower-cased form ends with
"?" and contains no greeting keyword, generate never returns a greeting
reply and always returns a question-category (category 2) reply; the
question category is decided by the ends-with-"?" condition before
categories 3-8 are tested (it comes after category 1 only). -/
theorem C1_theorem (s : String)
    (hg : containsAny (normalize s) greetingKeywords = false)
    (hq : endsWithQ (normalize s) = true) (pick : Nat) :
    generate_response s pick ∈ questionPool ∧
    generate_response s pick ∉ greetingResponses := by
  have hchar := responseCandidates_question_char s hg hq
  have hne : responseCandidates s ≠ [] := by
    have hlists : ∀ l ∈ [[howAreYouResponse], [nameResponse], [weatherResponse],
        [timeResponse], questionResponses], l ≠ ([] : List String) := by decide
    exact hlists _ hchar
  have hmem : generate_response s pick ∈ responseCandidates s := by
    show (responseCandidates s).getD
      (pick % (responseCandidates s).length) "" ∈ responseCandidates s
    exact getD_mod_mem _ _ _ hne
  have hall : ∀ l ∈ [[howAreYouResponse], [nameResponse], [weatherResponse],
      [timeResponse], questionResponses],
      ∀ r ∈ l, r ∈ questionPool ∧ r ∉ greetingResponses := by decide
  exact hall _ hchar _ hmem

/-- C1 witness: the amended theorem applied to the concrete input
"what time?". -/
theorem C1_witness :
    containsAny (normalize "what time?") greetingKeywords = false ∧
    endsWithQ (normalize "what time?") = true ∧
    generate_response "what time?" 0 ∈ questionPool ∧
    generate_response "what time?" 0 ∉ greetingResponses := by
  have h := C1_theorem "what time?" (by decide) (by decide) 0
  exact ⟨by decide, by decide, h.1, h.2⟩

/-- `find?` over a map by a function that does not change the predicate's
value commutes with the map. -/
theorem find?_map_pres {α : Type} (p : α → Bool) (g : α → α)
    (hp : ∀ a, p (g a) = p a) (l : List α) :
    (l.map g).find? p = (l.find? p).map g := by
  induction l with
  | nil => rfl
  | cons a l ih =>
    by_cases h : p a = true
    · rw [List.map_cons, List.find?_cons_of_pos _ (show p (g a) = true by rw [hp]; exact h),
        List.find?_cons_of_pos _ h, Option.map_some']
    · rw [List.map_cons,
        List.find?_cons_of_neg _ (show ¬p (g a) = true by rw [hp]; simpa using h),
        List.find?_cons_of_neg _ (by simpa using h), ih]

/-- Looking up the key a keyed update targeted returns the updated row. -/
theorem find?_upd (l : List Conversation) (cid : Nat) (f : Conversation → Conversation)
    (hf : ∀ x, (f x).id = x.id) :
    (l.map (fun x => if x.id == cid then f x else x)).find? (fun c => c.id == cid) =
      (l.find? (fun c => c.id == cid)).map f := by
  rw [find?_map_pres _ _ (fun a => by by_cases h : (a.id == cid) = true <;> simp [h, hf])]
  cases hfind : l.find? (fun c => c.id == cid) with
  | none => rfl
  | some c =>
    have hc := List.find?_some hfind
    simp only [Option.map_some']
    rw [if_pos hc]

/-- `get_conversation` after the `updated_at` touch: the looked-up row with
its timestamp replaced. -/
theorem get_conversation_touch (db : DB) (cid : Nat) (now : Nat) :
    get_conversation (touch_conversation db cid now) cid =
      (get_conversation db cid).map (fun c => { c with updated_at := now }) := by
  unfold get_conversation touch_conversation
  exact find?_upd db.conversations cid (fun c => { c with updated_at := now }) (fun _ => rfl)

/-- C6: find-or-create is idempotent per username: the second call returns
the very same user record as the first and leaves the store untouched, so
the second call's displayName (and timestamp) have no effect on the stored
record. -/
theorem C6_theorem (db : DB) (u : String) (d1 d2 : Option String) (n1 n2 : Nat) :
    get_or_create_user ((get_or_create_user db u d1 n1).2) u d2 n2 =
      get_or_create_user db u d1 n1 := by
  unfold get_or_create_user
  cases hf : db.users.find? (fun x => x.username == u) with
  | some v => simp [hf]
  | none =>
    simp only [hf, List.find?_append]
    simp

/-- C2: a `conversation_id` referencing no conversation makes createMessage
(and hence the whole turn through the UI's send path) a no-op failure: the
result is `none` and the store is unchanged — no message row is created,
for every fault schedule. -/
theorem C2_theorem (db : DB) (content : String) (ty : MessageType) (cid : Nat)
    (r : Option Nat) (mo : Option String) (tI tT : Nat) (iOk tOk : Bool)
    (h : get_conversation db cid = none) :
    create_message db content ty cid r mo tI tT iOk tOk = (none, db) ∧
    ∀ (text : String) (tU1 tU2 : Nat) (uI uT : Bool) (pick rt tB : Nat) (bI : Bool),
      send_message db text cid tU1 tU2 uI uT pick rt tB bI = (none, db) := by
  have hcm : ∀ (content : String) (ty : MessageType) (r : Option Nat) (mo : Option String)
      (tI tT : Nat) (iOk tOk : Bool),
      create_message db content ty cid r mo tI tT iOk tOk = (none, db) := by
    intro content ty r mo tI tT iOk tOk
    unfold create_message
    rw [h]
    simp
  refine ⟨hcm content ty r mo tI tT iOk tOk, ?_⟩
  intro text tU1 tU2 uI uT pick rt tB bI
  unfold send_message
  by_cases he : (pyStrip text.data).isEmpty = true
  · simp [he]
  · simp only [he, Bool.false_eq_true, if_false]
    rw [hcm (String.mk (pyStrip text.data)) MessageType.USER none none tU1 tU2 uI uT]

/-- C2 witness: the theorem at the empty store and conversation id 5. -/
theorem C2_witness :
    get_conversation DB.empty 5 = none ∧
    create_message DB.empty "x" MessageType.USER 5 none none 0 0 true true =
      (none, DB.empty) :=
  ⟨rfl, (C2_theorem DB.empty "x" MessageType.USER 5 none none 0 0 true true rfl).1⟩

/-- The fault-free run of `create_message` on an existing conversation:
the fresh row is returned and appended, and the parent's `updated_at` is
set to the touch time. -/
theorem create_message_success (db : DB) (content : String) (ty : MessageType)
    (cid : Nat) (r : Option Nat) (mo : Option String) (tI tT : Nat) (c : Conversation)
    (hc : get_conversation db cid = some c) :
    (create_message db content ty cid r mo tI tT true true).1 =
      some ⟨db.nextMsgId, content, ty, cid, tI, r, mo⟩ ∧
    (create_message db content ty cid r mo tI tT true true).2.messages =
      db.messages ++ [⟨db.nextMsgId, content, ty, cid, tI, r, mo⟩] ∧
    get_conversation (create_message db content ty cid r mo tI tT true true).2 cid =
      some { c with updated_at := tT } := by
  have hcond : ((get_conversation db cid).isSome && true) = true := by rw [hc]; rfl
  unfold create_message
  rw [if_pos hcond, if_pos rfl]
  refine ⟨rfl, rfl, ?_⟩
  rw [get_conversation_touch]
  show (get_conversation db cid).map _ = _
  rw [hc]
  rfl

/-- A message returned by `create_message` is in the post-state's store. -/
theorem create_message_mem {db : DB} {content : String} {ty : MessageType}
    {cid : Nat} {r : Option Nat} {mo : Option String} {tI tT : Nat} {iOk tOk : Bool}
    {m : Message} {db' : DB}
    (h : create_message db content ty cid r mo tI tT iOk tOk = (some m, db')) :
    m ∈ db'.messages := by
  unfold create_message at h
  by_cases hcond : ((get_conversation db cid).isSome && iOk) = true
  · rw [if_pos hcond] at h
    by_cases ht : tOk = true
    · rw [if_pos ht] at h
      have hm := congrArg Prod.fst h
      have hdb := congrArg Prod.snd h
      simp only at hm hdb
      cases hm
      rw [← hdb]
      simp [touch_conversation]
    · rw [if_neg ht] at h
      have hm := congrArg Prod.fst h
      simp only at hm
      cases hm
  · rw [if_neg hcond] at h
    have hm := congrArg Prod.fst h
    simp only at hm
    cases hm

example : get_conversation dbC 0 = some ⟨0, "New Conversation", 0, 2, 2, true⟩ := by decide

/-- C3 counterexample: on `dbC` (one conversation, `updated_at` = 2), a
`create_message` whose insert commit succeeds and whose touch commit faults
(the spec's own `PersistenceError` between the code's two `session.commit()`
calls, lines 115 and 123) returns the failure marker yet leaves the new
message row durable while the parent conversation's `updated_at` still has
its pre-call value — refuting "inserted and touched in one transaction". -/
theorem C3_counterexample :
    (create_message dbC "hi" MessageType.USER 0 none none 20 21 true false).1 = none ∧
    (create_message dbC "hi" MessageType.USER 0 none none 20 21 true false).2.messages.map
      Message.content = ["hi"] ∧
    (get_conversation (create_message dbC "hi" MessageType.USER 0 none none 20 21 true false).2 0).map
      Conversation.updated_at =
      (get_conversation dbC 0).map Conversation.updated_at := by decide

/-- C3 (amended): `create_message` commits the message insert and the
`updated_at` touch in two separate transactions. When the insert commit
fails nothing is applied; when both commits succeed the row is appended and
the parent's `updated_at` is set to the touch time; but when the insert
commit succeeds and the touch commit faults, the call reports failure while
the message row is already durable and the parent's `updated_at` keeps its
pre-call value. -/
theorem C3_theorem (db : DB) (content : String) (ty : MessageType) (cid : Nat)
    (r : Option Nat) (mo : Option String) (tI tT : Nat) (c : Conversation)
    (hc : get_conversation db cid = some c) :
    (∀ tOk, create_message db content ty cid r mo tI tT false tOk = (none, db)) ∧
    ((create_message db content ty cid r mo tI tT true true).1 =
        some ⟨db.nextMsgId, content, ty, cid, tI, r, mo⟩ ∧
      (create_message db content ty cid r mo tI tT true true).2.messages =
        db.messages ++ [⟨db.nextMsgId, content, ty, cid, tI, r, mo⟩] ∧
      get_conversation (create_message db content ty cid r mo tI tT true true).2 cid =
        some { c with updated_at := tT }) ∧
    ((create_message db content ty cid r mo tI tT true false).1 = none ∧
      (create_message db content ty cid r mo tI tT true false).2.messages =
        db.messages ++ [⟨db.nextMsgId, content, ty, cid, tI, r, mo⟩] ∧
      get_conversation (create_message db content ty cid r mo tI tT true false).2 cid =
        some c) := by
  refine ⟨?_, create_message_success db content ty cid r mo tI tT c hc, ?_⟩
  · intro tOk
    unfold create_message
    simp
  · have hcond : ((get_conversation db cid).isSome && true) = true := by rw [hc]; rfl
    unfold create_message
    rw [if_pos hcond, if_neg (by simp)]
    exact ⟨rfl, rfl, hc⟩

/-- C3 witness: the amended theorem at `dbC`, conversation 0. -/
theorem C3_witness :
    get_conversation dbC 0 = some ⟨0, "New Conversation", 0, 2, 2, true⟩ ∧
    (create_message dbC "hi" MessageType.USER 0 none none 20 21 true true).1 =
      some ⟨0, "hi", MessageType.USER, 0, 20, none, none⟩ ∧
    get_conversation (create_message dbC "hi" MessageType.USER 0 none none 20 21 true true).2 0 =
      some ⟨0, "New Conversation", 0, 2, 21, true⟩ := by
  have h := C3_theorem dbC "hi" MessageType.USER 0 none none 20 21
    ⟨0, "New Conversation", 0, 2, 2, true⟩ (by decide)
  exact ⟨by decide, h.2.1.1, h.2.1.2.2⟩

/-- C10: `create_message` never consults the conversation's `is_active`
flag: on an existing soft-deleted conversation the (fault-free) call still
succeeds, appends the message row, and touches the conversation's
`updated_at` — a soft-deleted conversation keeps accepting messages. -/
theorem C10_theorem (db : DB) (cid : Nat) (c : Conversation)
    (hc : get_conversation db cid = some c) (hia : c.is_active = false)
    (content : String) (ty : MessageType) (r : Option Nat) (mo : Option String)
    (tI tT : Nat) :
    (create_message db content ty cid r mo tI tT true true).1 =
      some ⟨db.nextMsgId, content, ty, cid, tI, r, mo⟩ ∧
    (create_message db content ty cid r mo tI tT true true).2.messages =
      db.messages ++ [⟨db.nextMsgId, content, ty, cid, tI, r, mo⟩] ∧
    get_conversation (create_message db content ty cid r mo tI tT true true).2 cid =
      some { c with updated_at := tT } ∧
    ({ c with updated_at := tT } : Conversation).is_active = false := by
  obtain ⟨h1, h2, h3⟩ := create_message_success db content ty cid r mo tI tT c hc
  exact ⟨h1, h2, h3, hia⟩

/-- C10 witness: the theorem at `dbDel`, whose only conversation is
soft-deleted. -/
theorem C10_witness :
    get_conversation dbDel 0 = some ⟨0, "New Conversation", 0, 2, 3, false⟩ ∧
    (create_message dbDel "more" MessageType.USER 0 none none 7 8 true true).1 =
      some ⟨0, "more", MessageType.USER, 0, 7, none, none⟩ ∧
    get_conversation (create_message dbDel "more" MessageType.USER 0 none none 7 8 true true).2 0 =
      some ⟨0, "New Conversation", 0, 2, 8, false⟩ := by
  have h := C10_theorem dbDel 0 ⟨0, "New Conversation", 0, 2, 3, false⟩ (by decide) rfl
    "more" MessageType.USER none none 7 8
  exact ⟨by decide, h.1, h.2.2.1⟩

/-- A `create_message` with a fault at either commit reports failure, and
every message already stored stays stored. -/
theorem create_message_fail (db : DB) (content : String) (ty : MessageType) (cid : Nat)
    (r : Option Nat) (mo : Option String) (tI tT : Nat) {iOk tOk : Bool}
    (hfail : iOk = false ∨ tOk = false) :
    (create_message db content ty cid r mo tI tT iOk tOk).1 = none ∧
    ∀ m ∈ db.messages, m ∈ (create_message db content ty cid r mo tI tT iOk tOk).2.messages := by
  unfold create_message
  by_cases hcond : ((get_conversation db cid).isSome && iOk) = true
  · have htOk : tOk = false := by
      rcases hfail with h | h
      · rw [h] at hcond; simp at hcond
      · exact h
    rw [if_pos hcond]
    simp only [htOk, Bool.false_eq_true, if_false]
    exact ⟨by simp, fun m hm => List.mem_append_left _ hm⟩
  · rw [if_neg hcond]
    exact ⟨rfl, fun m hm => hm⟩

/-- A `create_bot_message` whose one insert commit faults reports failure
and leaves the store untouched. -/
theorem create_bot_message_fail (db : DB) (content : String) (cid : Nat)
    (r : Option Nat) (tB : Nat) :
    create_bot_message db content cid r tB false = (none, db) := by
  unfold create_bot_message
  simp

/-- C5: when the USER message has been persisted and the BOT step fails at
its (single) insert commit, the turn returns the failure marker `none`
(never a substitute or partial reply as its result) and the stored USER
message is still in the post-state's store, unchanged. (In the code the
generator itself is a total function and cannot fail, so the `except`
fallback that would send an apology message is dead code; the failing step
is the persistence of the BOT message, modelled by the fault flag.) -/
theorem C5_theorem (db : DB) (text : String) (cid : Nat) (tU1 tU2 pick rt tB : Nat)
    (um : Message)
    (hne : (pyStrip text.data).isEmpty = false)
    (huser : (create_message db (String.mk (pyStrip text.data)) MessageType.USER cid
      none none tU1 tU2 true true).1 = some um) :
    (send_message db text cid tU1 tU2 true true pick rt tB false).1 = none ∧
    um ∈ (send_message db text cid tU1 tU2 true true pick rt tB false).2.messages ∧
    (send_message db text cid tU1 tU2 true true pick rt tB false).2 =
      (create_message db (String.mk (pyStrip text.data)) MessageType.USER cid
        none none tU1 tU2 true true).2 := by
  have hpair : create_message db (String.mk (pyStrip text.data)) MessageType.USER cid
      none none tU1 tU2 true true =
      (some um, (create_message db (String.mk (pyStrip text.data)) MessageType.USER cid
        none none tU1 tU2 true true).2) := by
    rw [← huser]
  have hum : um ∈ (create_message db (String.mk (pyStrip text.data)) MessageType.USER cid
      none none tU1 tU2 true true).2.messages := create_message_mem hpair
  unfold send_message
  simp only [hne, Bool.false_eq_true, if_false]
  rw [hpair]
  show ((process_user_message _ _ _ _ _ _ _).1 = none ∧
    um ∈ (process_user_message _ _ _ _ _ _ _).2.messages ∧
    (process_user_message _ _ _ _ _ _ _).2 = _)
  have hred : process_user_message
      ((create_message db (String.mk (pyStrip text.data)) MessageType.USER cid
        none none tU1 tU2 true true).2) (String.mk (pyStrip text.data)) cid pick rt tB false =
      (none, (create_message db (String.mk (pyStrip text.data)) MessageType.USER cid
        none none tU1 tU2 true true).2) :=
    create_bot_message_fail _ _ _ _ _
  rw [hred]
  exact ⟨rfl, hum, rfl⟩

/-- C5 witness: the theorem at `dbC` with the BOT insert commit faulting. -/
theorem C5_witness :
    (pyStrip "yo".data).isEmpty = false ∧
    (send_message dbC "yo" 0 3 4 true true 0 0 5 false).1 = none ∧
    (⟨0, "yo", MessageType.USER, 0, 3, none, none⟩ : Message) ∈
      (send_message dbC "yo" 0 3 4 true true 0 0 5 false).2.messages := by
  have h := C5_theorem dbC "yo" 0 3 4 0 0 5
    ⟨0, "yo", MessageType.USER, 0, 3, none, none⟩ (by decide) (by decide)
  exact ⟨by decide, h.1, h.2.1⟩

/-- C8: soft delete on an existing conversation returns true; afterwards
`get_conversation` still returns the record with `is_active` false,
the active-only listing excludes the conversation, the all-rows listing
includes it, and soft delete on an unknown id returns false without
change. -/
theorem C8_theorem (db : DB) (cid : Nat) (now : Nat) (c : Conversation)
    (hc : get_conversation db cid = some c) :
    (delete_conversation db cid now).1 = true ∧
    get_conversation (delete_conversation db cid now).2 cid =
      some { c with is_active := false, updated_at := now } ∧
    (∀ x ∈ get_user_conversations (delete_conversation db cid now).2 c.user_id true,
      x.id ≠ cid) ∧
    ({ c with is_active := false, updated_at := now } : Conversation) ∈
      get_user_conversations (delete_conversation db cid now).2 c.user_id false ∧
    (∀ (db2 : DB) (cid2 now2 : Nat), get_conversation db2 cid2 = none →
      delete_conversation db2 cid2 now2 = (false, db2)) := by
  have hc' : db.conversations.find? (fun x => x.id == cid) = some c := hc
  have hcid : (c.id == cid) = true := by
    have h0 := List.find?_some hc'
    exact h0
  have hpost : (delete_conversation db cid now).2 =
      { db with conversations :=
          db.conversations.map (fun x =>
            if x.id == cid then { x with is_active := false, updated_at := now } else x) } := by
    unfold delete_conversation
    rw [hc]
  refine ⟨?_, ?_, ?_, ?_, ?_⟩
  · unfold delete_conversation
    rw [hc]
  · rw [hpost]
    show (db.conversations.map (fun x =>
        if x.id == cid then { x with is_active := false, updated_at := now } else x)).find?
      (fun x => x.id == cid) = some { c with is_active := false, updated_at := now }
    rw [find?_upd db.conversations cid
      (fun x => { x with is_active := false, updated_at := now }) (fun _ => rfl), hc']
    rfl
  · intro x hx
    rw [hpost] at hx
    unfold get_user_conversations at hx
    rw [List.mem_insertionSort] at hx
    obtain ⟨hxmem, hxcond⟩ := List.mem_filter.mp hx
    simp only [Bool.not_true, Bool.false_or, Bool.and_eq_true] at hxcond
    obtain ⟨y, hy, hxy⟩ := List.mem_map.mp hxmem
    intro hxid
    by_cases hyid : (y.id == cid) = true
    · rw [if_pos hyid] at hxy
      rw [← hxy] at hxcond
      simp at hxcond
    · rw [if_neg hyid] at hxy
      exact hyid (by rw [hxy]; exact beq_iff_eq.mpr hxid)
  · rw [hpost]
    unfold get_user_conversations
    rw [List.mem_insertionSort, List.mem_filter]
    constructor
    · have hmem := List.mem_map_of_mem
        (fun x => if x.id == cid then { x with is_active := false, updated_at := now } else x)
        (List.mem_of_find?_eq_some hc')
      simp only [] at hmem
      rw [if_pos hcid] at hmem
      exact hmem
    · simp
  · intro db2 cid2 now2 h
    unfold delete_conversation
    rw [h]

/-- C8 witness: the theorem at `dbC`, conversation 0, delete time 5. -/
theorem C8_witness :
    get_conversation dbC 0 = some ⟨0, "New Conversation", 0, 2, 2, true⟩ ∧
    (delete_conversation dbC 0 5).1 = true ∧
    get_conversation (delete_conversation dbC 0 5).2 0 =
      some ⟨0, "New Conversation", 0, 2, 5, false⟩ := by
  have h := C8_theorem dbC 0 5 ⟨0, "New Conversation", 0, 2, 2, true⟩ (by decide)
  exact ⟨by decide, h.1, h.2.1⟩

/-- C4: for every store and conversation, the listed messages are sorted by
`created_at` ascending, and messages sharing a `created_at` value appear in
insertion order: for each timestamp, the listed messages carrying it are
exactly the stored (insertion-ordered) messages of the conversation with
that timestamp, in the same order. -/
theorem C4_theorem (db : DB) (cid : Nat) :
    (get_conversation_messages db cid none).Pairwise msgLe ∧
    ∀ t : Nat,
      (get_conversation_messages db cid none).filter (fun m => m.created_at == t) =
        db.messages.filter (fun m => m.conversation_id == cid && m.created_at == t) := by
  constructor
  · exact List.sorted_insertionSort msgLe _
  · intro t
    have hshape : get_conversation_messages db cid none =
        List.insertionSort msgLe (db.messages.filter (fun m => m.conversation_id == cid)) := rfl
    rw [hshape]
    set base := db.messages.filter (fun m => m.conversation_id == cid) with hbase
    have hpair : (base.filter (fun m => m.created_at == t)).Pairwise msgLe := by
      apply List.pairwise_of_forall_mem_list
      intro a ha b hb
      have ha' : (a.created_at == t) = true := (List.mem_filter.mp ha).2
      have hb' : (b.created_at == t) = true := (List.mem_filter.mp hb).2
      show a.created_at ≤ b.created_at
      rw [beq_iff_eq.mp ha', beq_iff_eq.mp hb']
    have hsub : List.Sublist (base.filter (fun m => m.created_at == t))
        (List.insertionSort msgLe base) :=
      List.sublist_insertionSort hpair (List.filter_sublist base)
    have hsubf : List.Sublist (base.filter (fun m => m.created_at == t))
        ((List.insertionSort msgLe base).filter (fun m => m.created_at == t)) := by
      have h2 := List.Sublist.filter (fun m => m.created_at == t) hsub
      rwa [List.filter_eq_self.mpr (fun a ha => (List.mem_filter.mp ha).2)] at h2
    have hperm : ((List.insertionSort msgLe base).filter (fun m => m.created_at == t)).Perm
        (base.filter (fun m => m.created_at == t)) :=
      (List.perm_insertionSort msgLe base).filter _
    have heq : base.filter (fun m => m.created_at == t) =
        (List.insertionSort msgLe base).filter (fun m => m.created_at == t) :=
      hsubf.eq_of_length hperm.length_eq.symm
    rw [← heq, hbase, List.filter_filter]
    exact List.filter_congr (fun a _ => by rw [Bool.and_comm])

/-- Weakening the clock bound. -/
theorem timeBound_mono (db : DB) (t now : Nat) (h : TimeBound db t) (ht : t ≤ now) :
    TimeBound db now :=
  ⟨fun c hc => Nat.le_trans (h.1 c hc) ht, fun m hm => Nat.le_trans (h.2 m hm) ht⟩

/-- One fault-free exposed operation keeps all stored timestamps bounded by
the clock. -/
theorem timeBound_applyOp (db : DB) (t : Nat) (op : Op) (now : Nat)
    (h : TimeBound db t) (htn : t ≤ now) (hop : opTimeOk op now) :
    TimeBound (applyOp db op now) now := by
  cases op with
  | findOrCreateUser u d =>
    show TimeBound (get_or_create_user db u d now).2 now
    unfold get_or_create_user
    cases hf : db.users.find? (fun x => x.username == u) with
    | some v => exact timeBound_mono db t now h htn
    | none =>
      exact ⟨fun c hc => Nat.le_trans (h.1 c hc) htn,
        fun m hm => Nat.le_trans (h.2 m hm) htn⟩
  | newConversation uid ti =>
    show TimeBound (create_conversation db uid ti now).2 now
    unfold create_conversation
    by_cases hu : ((db.users.find? (fun x => x.id == uid)).isSome) = true
    · rw [if_pos hu]
      refine ⟨fun c hc => ?_, fun m hm => Nat.le_trans (h.2 m hm) htn⟩
      rcases List.mem_append.mp hc with hc | hc
      · exact Nat.le_trans (h.1 c hc) htn
      · rw [List.mem_singleton.mp hc]
    · rw [if_neg hu]
      exact timeBound_mono db t now h htn
  | newMessage content ty cid r mo tI =>
    show TimeBound (create_message db content ty cid r mo tI now true true).2 now
    unfold create_message
    by_cases hcond : ((get_conversation db cid).isSome && true) = true
    · rw [if_pos hcond, if_pos rfl]
      have htI : tI ≤ now := hop
      refine ⟨fun c hc => ?_, fun m hm => ?_⟩
      · obtain ⟨y, hy, hfy⟩ := List.mem_map.mp hc
        by_cases hyid : (y.id == cid) = true
        · rw [← hfy, if_pos hyid]
        · rw [← hfy, if_neg hyid]
          exact Nat.le_trans (h.1 y hy) htn
      · rcases List.mem_append.mp hm with hm | hm
        · exact Nat.le_trans (h.2 m hm) htn
        · rw [List.mem_singleton.mp hm]
          exact htI
    · rw [if_neg hcond]
      exact timeBound_mono db t now h htn
  | botMessage content cid r =>
    show TimeBound (create_bot_message db content cid r now true).2 now
    unfold create_bot_message
    by_cases hcond : ((get_conversation db cid).isSome && true) = true
    · rw [if_pos hcond]
      refine ⟨fun c hc => Nat.le_trans (h.1 c hc) htn, fun m hm => ?_⟩
      rcases List.mem_append.mp hm with hm | hm
      · exact Nat.le_trans (h.2 m hm) htn
      · rw [List.mem_singleton.mp hm]
    · rw [if_neg hcond]
      exact timeBound_mono db t now h htn
  | softDelete cid =>
    show TimeBound (delete_conversation db cid now).2 now
    unfold delete_conversation
    cases hf : get_conversation db cid with
    | none => exact timeBound_mono db t now h htn
    | some c =>
      refine ⟨fun c2 hc2 => ?_, fun m hm => Nat.le_trans (h.2 m hm) htn⟩
      obtain ⟨y, hy, hfy⟩ := List.mem_map.mp hc2
      by_cases hyid : (y.id == cid) = true
      · rw [← hfy, if_pos hyid]
      · rw [← hfy, if_neg hyid]
        exact Nat.le_trans (h.1 y hy) htn
  | retitle cid ti =>
    show TimeBound (update_conversation_title db cid ti now).2 now
    unfold update_conversation_title
    cases hf : get_conversation db cid with
    | none => exact timeBound_mono db t now h htn
    | some c =>
      refine ⟨fun c2 hc2 => ?_, fun m hm => Nat.le_trans (h.2 m hm) htn⟩
      obtain ⟨y, hy, hfy⟩ := List.mem_map.mp hc2
      by_cases hyid : (y.id == cid) = true
      · rw [← hfy, if_pos hyid]
      · rw [← hfy, if_neg hyid]
        exact Nat.le_trans (h.1 y hy) htn

/-- Every reachable store keeps its timestamps bounded by the clock. -/
theorem reach_timeBound (db : DB) (t : Nat) (h : Reach db t) : TimeBound db t := by
  induction h with
  | init => exact ⟨(fun x hx => nomatch hx), (fun x hx => nomatch hx)⟩
  | step op now hr htn hop ih => exact timeBound_applyOp _ _ op now ih htn hop

/-- After a keyed conversation update that preserves ids and only ever
raises `updated_at` to `now`, a looked-up conversation's `updated_at` has
not decreased. -/
theorem updated_at_le_map (db : DB) (t now cid : Nat) (c c' : Conversation)
    (g : Conversation → Conversation)
    (hgid : ∀ x, (g x).id = x.id)
    (hgup : ∀ x, (g x).updated_at = x.updated_at ∨ (g x).updated_at = now)
    (htb : ∀ x ∈ db.conversations, x.updated_at ≤ t) (htn : t ≤ now)
    (hc : get_conversation db cid = some c)
    (hc' : (db.conversations.map g).find? (fun x => x.id == cid) = some c') :
    c.updated_at ≤ c'.updated_at := by
  have hcu : db.conversations.find? (fun x => x.id == cid) = some c := hc
  rw [find?_map_pres _ g (fun a => by rw [hgid]), hcu] at hc'
  have hgc : g c = c' := by
    injection hc'
  rcases hgup c with hu | hu
  · rw [← hgc, hu]
  · rw [← hgc, hu]
    exact Nat.le_trans (htb c (List.mem_of_find?_eq_some hcu)) htn

/-- No fault-free exposed operation decreases a conversation's
`updated_at`. -/
theorem applyOp_updated_at_mono (db : DB) (t : Nat) (op : Op) (now cid : Nat)
    (c c' : Conversation)
    (htb : TimeBound db t) (htn : t ≤ now)
    (hc : get_conversation db cid = some c)
    (hc' : get_conversation (applyOp db op now) cid = some c') :
    c.updated_at ≤ c'.updated_at := by
  have hle : c = c' → c.updated_at ≤ c'.updated_at := fun h => by rw [h]
  cases op with
  | findOrCreateUser u d =>
    have heq : get_conversation (applyOp db (Op.findOrCreateUser u d) now) cid =
        get_conversation db cid := by
      show get_conversation (get_or_create_user db u d now).2 cid = _
      unfold get_or_create_user
      cases hf : db.users.find? (fun x => x.username == u) with
      | some v => rfl
      | none => rfl
    rw [heq, hc] at hc'
    exact hle (by injection hc')
  | newConversation uid ti =>
    by_cases hu : ((db.users.find? (fun x => x.id == uid)).isSome) = true
    · obtain ⟨nc, happ⟩ : ∃ nc, (applyOp db (Op.newConversation uid ti) now).conversations =
          db.conversations ++ [nc] := by
        refine ⟨⟨db.nextConvId, ti.getD "New Conversation", uid, now, now, true⟩, ?_⟩
        show ((create_conversation db uid ti now).2).conversations = _
        unfold create_conversation
        rw [if_pos hu]
      have hc'' : (db.conversations ++ [nc]).find? (fun x => x.id == cid) = some c' := by
        have hcc : (applyOp db (Op.newConversation uid ti) now).conversations.find?
            (fun x => x.id == cid) = some c' := hc'
        rw [happ] at hcc
        exact hcc
      rw [List.find?_append] at hc''
      have hcu : db.conversations.find? (fun x => x.id == cid) = some c := hc
      rw [hcu] at hc''
      exact hle (by injection hc'')
    · have heq : applyOp db (Op.newConversation uid ti) now = db := by
        show (create_conversation db uid ti now).2 = db
        unfold create_conversation
        rw [if_neg hu]
      rw [heq, hc] at hc'
      exact hle (by injection hc')
  | newMessage content ty mcid r mo tI =>
    by_cases hcond : ((get_conversation db mcid).isSome && true) = true
    · have happ : (applyOp db (Op.newMessage content ty mcid r mo tI) now).conversations =
          db.conversations.map (fun x =>
            if x.id == mcid then { x with updated_at := now } else x) := by
        show ((create_message db content ty mcid r mo tI now true true).2).conversations = _
        unfold create_message
        rw [if_pos hcond]
        rfl
      have hc'' : (db.conversations.map (fun x =>
          if x.id == mcid then { x with updated_at := now } else x)).find?
          (fun x => x.id == cid) = some c' := by
        have hcc : (applyOp db (Op.newMessage content ty mcid r mo tI) now).conversations.find?
            (fun x => x.id == cid) = some c' := hc'
        rw [happ] at hcc
        exact hcc
      exact updated_at_le_map db t now cid c c' _
        (fun x => by by_cases hy : (x.id == mcid) = true <;> simp [hy])
        (fun x => by
          by_cases hy : (x.id == mcid) = true
          · rw [if_pos hy]; exact Or.inr rfl
          · rw [if_neg hy]; exact Or.inl rfl)
        htb.1 htn hc hc''
    · have heq : applyOp db (Op.newMessage content ty mcid r mo tI) now = db := by
        show (create_message db content ty mcid r mo tI now true true).2 = db
        unfold create_message
        rw [if_neg hcond]
      rw [heq, hc] at hc'
      exact hle (by injection hc')
  | botMessage content bcid r =>
    by_cases hcond : ((get_conversation db bcid).isSome && true) = true
    · have happ : (applyOp db (Op.botMessage content bcid r) now).conversations =
          db.conversations := by
        show ((create_bot_message db content bcid r now true).2).conversations = _
        unfold create_bot_message
        rw [if_pos hcond]
      have hcc : db.conversations.find? (fun x => x.id == cid) = some c' := by
        have h0 : (applyOp db (Op.botMessage content bcid r) now).conversations.find?
            (fun x => x.id == cid) = some c' := hc'
        rw [happ] at h0
        exact h0
      have hcu : db.conversations.find? (fun x => x.id == cid) = some c := hc
      rw [hcu] at hcc
      exact hle (by injection hcc)
    · have heq : applyOp db (Op.botMessage content bcid r) now = db := by
        show (create_bot_message db content bcid r now true).2 = db
        unfold create_bot_message
        rw [if_neg hcond]
      rw [heq, hc] at hc'
      exact hle (by injection hc')
  | softDelete dcid =>
    cases hf : get_conversation db dcid with
    | none =>
      have heq : applyOp db (Op.softDelete dcid) now = db := by
        show (delete_conversation db dcid now).2 = db
        unfold delete_conversation
        rw [hf]
      rw [heq, hc] at hc'
      exact hle (by injection hc')
    | some cd =>
      have happ : (applyOp db (Op.softDelete dcid) now).conversations =
          db.conversations.map (fun x =>
            if x.id == dcid then { x with is_active := false, updated_at := now } else x) := by
        show ((delete_conversation db dcid now).2).conversations = _
        unfold delete_conversation
        rw [hf]
      have hc'' : (db.conversations.map (fun x =>
          if x.id == dcid then { x with is_active := false, updated_at := now } else x)).find?
          (fun x => x.id == cid) = some c' := by
        have hcc : (applyOp db (Op.softDelete dcid) now).conversations.find?
            (fun x => x.id == cid) = some c' := hc'
        rw [happ] at hcc
        exact hcc
      exact updated_at_le_map db t now cid c c' _
        (fun x => by by_cases hy : (x.id == dcid) = true <;> simp [hy])
        (fun x => by
          by_cases hy : (x.id == dcid) = true
          · rw [if_pos hy]; exact Or.inr rfl
          · rw [if_neg hy]; exact Or.inl rfl)
        htb.1 htn hc hc''
  | retitle rcid ti =>
    cases hf : get_conversation db rcid with
    | none =>
      have heq : applyOp db (Op.retitle rcid ti) now = db := by
        show (update_conversation_title db rcid ti now).2 = db
        unfold update_conversation_title
        rw [hf]
      rw [heq, hc] at hc'
      exact hle (by injection hc')
    | some cr =>
      have happ : (applyOp db (Op.retitle rcid ti) now).conversations =
          db.conversations.map (fun x =>
            if x.id == rcid then { x with title := ti, updated_at := now } else x) := by
        show ((update_conversation_title db rcid ti now).2).conversations = _
        unfold update_conversation_title
        rw [hf]
      have hc'' : (db.conversations.map (fun x =>
          if x.id == rcid then { x with title := ti, updated_at := now } else x)).find?
          (fun x => x.id == cid) = some c' := by
        have hcc : (applyOp db (Op.retitle rcid ti) now).conversations.find?
            (fun x => x.id == cid) = some c' := hc'
        rw [happ] at hcc
        exact hcc
      exact updated_at_le_map db t now cid c c' _
        (fun x => by by_cases hy : (x.id == rcid) = true <;> simp [hy])
        (fun x => by
          by_cases hy : (x.id == rcid) = true
          · rw [if_pos hy]; exact Or.inr rfl
          · rw [if_neg hy]; exact Or.inl rfl)
        htb.1 htn hc hc''

/-- C7 (amended): across every sequence of exposed operations — including
the BOT insert performed by `ChatbotService.create_bot_message`, which
commits once and performs no touch — each conversation's `updated_at` is
monotonically non-decreasing, and every reachable store keeps all stored
timestamps bounded by the clock. The second half of the original invariant
holds exactly for appends performed through
`ConversationService.create_message` with both commits succeeding: there
the parent's `updated_at` becomes the touch time, at or above the appended
message's `created_at`. It does not hold for appends through
`create_bot_message` (the bot reply of every turn and the welcome
message), which never touch `updated_at`: after a successful turn the
newest (BOT) message is newer than its conversation's `updated_at` — see
the counterexample. -/
theorem C7_theorem :
    (∀ (db : DB) (t : Nat), Reach db t → TimeBound db t) ∧
    (∀ (db : DB) (t : Nat) (op : Op) (now cid : Nat) (c c' : Conversation),
      TimeBound db t → t ≤ now →
      get_conversation db cid = some c →
      get_conversation (applyOp db op now) cid = some c' →
      c.updated_at ≤ c'.updated_at) ∧
    (∀ (db : DB) (content : String) (ty : MessageType) (cid : Nat) (r : Option Nat)
      (mo : Option String) (tI tT : Nat) (c : Conversation),
      get_conversation db cid = some c → tI ≤ tT →
      (create_message db content ty cid r mo tI tT true true).1 =
        some ⟨db.nextMsgId, content, ty, cid, tI, r, mo⟩ ∧
      get_conversation (create_message db content ty cid r mo tI tT true true).2 cid =
        some { c with updated_at := tT } ∧
      (⟨db.nextMsgId, content, ty, cid, tI, r, mo⟩ : Message).created_at ≤ tT) := by
  refine ⟨reach_timeBound, ?_, ?_⟩
  · intro db t op now cid c c' htb htn hc hc'
    exact applyOp_updated_at_mono db t op now cid c c' htb htn hc hc'
  · intro db content ty cid r mo tI tT c hc htt
    obtain ⟨h1, h2, h3⟩ := create_message_success db content ty cid r mo tI tT c hc
    exact ⟨h1, h3, htt⟩

/-- C7 witness: the clock bound at the concrete fault-free trace behind
`dbW` (which includes a BOT insert), the monotonicity conjunct at a
concrete soft delete on `dbC`, and the per-append conjunct at a concrete
`create_message` on `dbC`. -/
theorem C7_witness :
    TimeBound dbW 5 ∧
    ((⟨0, "New Conversation", 0, 2, 2, true⟩ : Conversation).updated_at ≤
      (⟨0, "New Conversation", 0, 2, 5, false⟩ : Conversation).updated_at) ∧
    (⟨0, "hi", MessageType.USER, 0, 20, none, none⟩ : Message).created_at ≤ 21 := by
  have hr : Reach dbW 5 :=
    Reach.step (Op.botMessage "reply" 0 (some 0)) 5
      (Reach.step (Op.newMessage "hi" MessageType.USER 0 none none 3) 4
        (Reach.step (Op.newConversation 0 none) 2
          (Reach.step (Op.findOrCreateUser "alice" none) 1 Reach.init (by decide) trivial)
          (by decide) trivial)
        (by decide) (show (3 : Nat) ≤ 4 by decide))
      (by decide) trivial
  refine ⟨C7_theorem.1 dbW 5 hr, ?_, ?_⟩
  · exact C7_theorem.2.1 dbC 2 (Op.softDelete 0) 5 0
      ⟨0, "New Conversation", 0, 2, 2, true⟩ ⟨0, "New Conversation", 0, 2, 5, false⟩
      ⟨by decide, by decide⟩ (by decide) (by decide) (by decide)
  · exact (C7_theorem.2.2 dbC "hi" MessageType.USER 0 none none 20 21
      ⟨0, "New Conversation", 0, 2, 2, true⟩ (by decide) (by decide)).2.2

/-- C7 counterexample, fault-free: a fully successful turn on the
reachable store `dbC` (conversation 0). The USER message is inserted at
time 3 and the touch sets `updated_at` to 4; the BOT reply is then
persisted by `create_bot_message` at time 5 with no touch. The turn
succeeds, yet the conversation's `updated_at` is 4 while its newest
message's `created_at` is 5 — refuting the claimed invariant with every
commit succeeding. -/
theorem C7_counterexample :
    (send_message dbC "yo" 0 3 4 true true 0 0 5 true).1.isSome = true ∧
    (get_conversation (send_message dbC "yo" 0 3 4 true true 0 0 5 true).2 0).map
      Conversation.updated_at = some 4 ∧
    (send_message dbC "yo" 0 3 4 true true 0 0 5 true).2.messages.map
      Message.created_at = [3, 5] ∧
    ¬ (5 ≤ 4) := by decide

end App
